import Mathlib

/-!
Shallow embedding of nose `plugins/errorclass.py` (ErrorClass plugins).

The file `src/nose/plugins/errorclass.py` defines:
  * `ErrorClass` — a declarative category: a tuple of exception classes plus
    required keyword arguments `label` and `isfailure`;
  * `MetaErrorClass` — a metaclass that flattens the `ErrorClass` attributes of
    a plugin class body into the tuple
    `errorClasses = ((cls, (attrName, label, isfailure)), ...)`;
  * `ErrorClassPlugin` — with `addError` (the per-event hook deciding
    handled / not handled), `prepareTestResult` (extends a result object:
    patches its methods once and merges the registry into
    `result.errorClasses`), and `patchResult`.

Python objects are embedded as follows: an exception class is a `PyClass`
carrying an id and the ids of all its ancestors (itself included), so that
`issubclass` is decidable membership; the raised-exception-type slot of an
`(etype, value, traceback)` triple is a `PyVal`, which is either a class or a
non-class value (for the `isclass` test); a test-result object is a
`TestResult` whose list-valued attributes (`errors`, `failures` and the
category storage buckets) live in an insertion-ordered association list
`attrs`, whose optional `errorClasses` field is the dict installed by
`patchResult` (`none` models `not hasattr(result, "errorClasses")`), and whose
`patched` flag records that `addError` / `wasSuccessful` / `printErrors` have
been wrapped. Python dicts are modelled as insertion-ordered association
lists. In the source the dict value `(storage, label, isfail)` holds the very
list object stored under the attribute `storage_attr`; the embedding keeps the
attribute name instead, so that aliasing becomes indirection through `attrs`.

The wrapped result methods themselves (`TextTestResult.addError`,
`wasSuccessful`, `printErrors`) live in `nose/result.py`, which is not part of
the sources; those two operations are modelled from the spec and marked so.
-/

/-- A test together with a formatted traceback, as stored in result buckets.
Tests are identified by a number, formatted tracebacks by a string. -/
abbrev Entry := Nat × String

/-- An exception class: an id plus the ids of every ancestor class,
itself included, so that subclass tests are decidable. -/
structure PyClass where
  id : Nat
  ancestors : List Nat
deriving DecidableEq, Repr

/-- Python `issubclass(sub, sup)`: `sup` is `sub` itself or an ancestor. -/
def issubclass (sub sup : PyClass) : Bool :=
  decide (sup.id ∈ sub.ancestors)

/-- The first component of a raised `(etype, value, traceback)` triple:
either an exception class, or some non-class value. -/
inductive PyVal where
  | cls (c : PyClass)
  | nonclass (n : Nat)
deriving DecidableEq, Repr

/-- `nose.util.isclass`, restricted to what `addError` needs. -/
def isclass : PyVal → Bool
  | .cls _ => true
  | .nonclass _ => false

/-- A declared error class: the matched exception classes plus the
`label` and `isfailure` keyword arguments (source `ErrorClass.__init__`,
after both required keywords were found). -/
structure ErrorClass where
  errorClasses : List PyClass
  label : String
  isfailure : Bool
deriving DecidableEq, Repr

/-- Outcome of `ErrorClass.__init__`: either a `TypeError` naming the
missing required keyword argument, or the constructed declaration. -/
inductive InitResult where
  | typeError (missing : String)
  | ok (e : ErrorClass)
deriving DecidableEq, Repr

/-- `ErrorClass.__init__(*errorClasses, **kw)`: `kw.pop("label")` then
`kw.pop("isfailure")`; a missing key raises
`TypeError("%s is a required named argument for ErrorClass" % e)`, so the
error names the first missing argument (`label` is popped first). -/
def ErrorClass.init (errorClasses : List PyClass) (label : Option String)
    (isfailure : Option Bool) : InitResult :=
  match label with
  | none => .typeError "label"
  | some lab =>
    match isfailure with
    | none => .typeError "isfailure"
    | some isf => .ok ⟨errorClasses, lab, isf⟩

/-- A value bound in a plugin class body: either an `ErrorClass`
declaration, or any other attribute value (the `isinstance` filter of the
metaclass only keeps the former). -/
inductive ClassAttr where
  | errCls (d : ErrorClass)
  | plain (n : Nat)
deriving DecidableEq, Repr

/-- The internal registry format: `(cls, (storage_attr, label, isfailure))`
tuples, exactly the shape built by `MetaErrorClass.__init__`. -/
abbrev Registry := List (PyClass × (String × String × Bool))

/-- One iteration of the `MetaErrorClass.__init__` loop over a class-body
binding `p`: for an `ErrorClass` declaration bound under name `p.1`, append
one `(cls, (name, label, isfailure))` tuple per exception class in it; any
other attribute is left alone by the `isinstance` filter. -/
def metaStep (acc : Registry) (p : String × ClassAttr) : Registry :=
  match p.2 with
  | .errCls detail =>
      acc ++ detail.errorClasses.map (fun c => (c, (p.1, detail.label, detail.isfailure)))
  | .plain _ => acc

/-- `MetaErrorClass.__init__`: walk the class-body attributes and collect
the registry tuples, then store the result on the class. -/
def metaErrorClasses (attr : List (String × ClassAttr)) : Registry :=
  attr.foldl metaStep []

/-- A plugin class as produced by the metaclass: `MetaErrorClass.__init__`
always executes `self.errorClasses = tuple(errorClasses)`, so the class
carries its own `errorClasses` attribute; attribute lookup prefers it to the
one of the base class. -/
structure PluginClass where
  ownAttrSet : Bool
  ownErrorClasses : Registry
  base : Option Registry
deriving DecidableEq, Repr

/-- Python attribute lookup for `errorClasses` on a plugin class: the own
class dict first, then the base class (the default on `ErrorClassPlugin`
is the empty tuple). -/
def PluginClass.lookupErrorClasses (c : PluginClass) : Registry :=
  if c.ownAttrSet then c.ownErrorClasses else c.base.getD []

/-- Defining a class under `MetaErrorClass`: the metaclass builds
`errorClasses` from the class body alone and sets it on the new class. -/
def defineClass (baseEC : Registry) (attr : List (String × ClassAttr)) : PluginClass :=
  ⟨true, metaErrorClasses attr, some baseEC⟩

/-- The state of a test-result object. `attrs` holds every list-valued
attribute (`errors`, `failures`, and the category storage buckets) as an
insertion-ordered association list; `errorClasses` is the dict installed by
`patchResult` (`none` when the attribute is absent); `patched` records that
the three methods have been wrapped. -/
structure TestResult where
  attrs : List (String × List Entry)
  errorClasses : Option Registry
  patched : Bool
deriving DecidableEq, Repr

/-- `getattr(result, name, [])` for the list-valued attributes. -/
def getAttrD (r : TestResult) (name : String) : List Entry :=
  ((r.attrs.find? (fun p => decide (p.1 = name))).map (fun p => p.2)).getD []

/-- `setattr(result, name, v)`: rebind an existing attribute, or add a new
binding at the end. -/
def setAttr (r : TestResult) (name : String) (v : List Entry) : TestResult :=
  if r.attrs.any (fun p => decide (p.1 = name)) then
    ⟨r.attrs.map (fun p => if p.1 = name then (name, v) else p), r.errorClasses, r.patched⟩
  else
    ⟨r.attrs ++ [(name, v)], r.errorClasses, r.patched⟩

/-- `storage.append(e)` on the bucket stored under `name`. -/
def appendAttr (r : TestResult) (name : String) (e : Entry) : TestResult :=
  setAttr r name (getAttrD r name ++ [e])

/-- Membership test of the `result.errorClasses` dict (`cls in dict`). -/
def dictHasKey (ec : Registry) (c : PyClass) : Bool :=
  ec.any (fun q => decide (q.1 = c))

/-- `ErrorClassPlugin.patchResult`: save and wrap `addError`,
`wasSuccessful` and, when present, `printErrors` (reflected by the
`patched` flag), and set `result.errorClasses = {}`. -/
def patchResult (r : TestResult) : TestResult :=
  ⟨r.attrs, some [], true⟩

/-- One iteration of the `prepareTestResult` loop, for one registry tuple
`(cls, (storage_attr, label, isfail))`: when `cls` is not yet a key of the
dict, `storage = getattr(result, storage_attr, [])`,
`setattr(result, storage_attr, storage)`, then record the mapping. -/
def registryStep (r : TestResult) (e : PyClass × (String × String × Bool)) : TestResult :=
  match r.errorClasses with
  | none => r
  | some ec =>
    if dictHasKey ec e.1 then r
    else
      let storage := getAttrD r e.2.1
      let r2 := setAttr r e.2.1 storage
      ⟨r2.attrs, some (ec ++ [e]), r2.patched⟩

/-- `ErrorClassPlugin.prepareTestResult(result)`: patch the result once
(only when it has no `errorClasses` attribute yet), then merge the plugin
registry into the dict. -/
def prepareTestResult (ecs : Registry) (r : TestResult) : TestResult :=
  ecs.foldl registryStep (if r.errorClasses.isNone then patchResult r else r)

/-- `ErrorClassPlugin.addError(self, test, err)`, threading the full state
through to make the absence of mutation visible: destructure
`err_cls, a, b = err`; when `err_cls` is not a class, fall off the end
(returning `None`); otherwise return `True` exactly when
`filter(lambda c: issubclass(err_cls, c), classes)` is non-empty. The
returned triple is (result state, plugin registry, returned value). -/
def pluginAddError (ecs : Registry) (r : TestResult) (test : Nat)
    (err : PyVal × Nat × Nat) : TestResult × Registry × Option Bool :=
  match err.1 with
  | .nonclass _ => (r, ecs, none)
  | .cls c =>
    let classes := ecs.map (fun e => e.1)
    if !(classes.filter (fun k => issubclass c k)).isEmpty then (r, ecs, some true)
    else (r, ecs, none)

/-- Modelled from the spec: the wrapped record-error operation is
`nose.result.TextTestResult.addError` (installed by `add_error_patch`),
and `nose/result.py` is not among the sources. Following spec section 4.3:
a raised value that is not a class falls through to default handling
(append to the default `errors` bucket); otherwise the registry merged
into `errorClasses` is walked in order, the first tuple whose class the
raised type is a subclass of receives `(test, formattedTraceback)` in its
storage bucket and default bookkeeping is suppressed; with no match the
event falls through to the default `errors` bucket. -/
def resultAddError (r : TestResult) (test : Nat) (errCls : PyVal) (tb : String) : TestResult :=
  match r.errorClasses with
  | none => appendAttr r "errors" (test, tb)
  | some ec =>
    match errCls with
    | .nonclass _ => appendAttr r "errors" (test, tb)
    | .cls c =>
      match ec.find? (fun q => issubclass c q.1) with
      | some q => appendAttr r q.2.1 (test, tb)
      | none => appendAttr r "errors" (test, tb)

/-- Modelled from the spec: the wrapped success query is
`nose.result.TextTestResult.wasSuccessful` (installed by
`wassuccessful_patch`), and `nose/result.py` is not among the sources.
Following spec section 4.4: false when the default `failures` or `errors`
bucket is non-empty, or when some entry of `errorClasses` has
`isfailure = true` and a non-empty storage bucket; true otherwise. -/
def resultWasSuccessful (r : TestResult) : Bool :=
  if !(getAttrD r "failures").isEmpty || !(getAttrD r "errors").isEmpty then false
  else
    match r.errorClasses with
    | none => true
    | some ec => !(ec.any (fun q => q.2.2.2 && !(getAttrD r q.2.1).isEmpty))

/-- A fresh, unextended result: empty default buckets, no `errorClasses`
attribute, unwrapped methods. -/
def freshResult : TestResult :=
  ⟨[("errors", []), ("failures", [])], none, false⟩

/-! ## Helper lemmas about the attribute store -/

theorem setAttr_errorClasses (r : TestResult) (n : String) (v : List Entry) :
    (setAttr r n v).errorClasses = r.errorClasses := by
  unfold setAttr
  split <;> rfl

theorem appendAttr_errorClasses (r : TestResult) (n : String) (e : Entry) :
    (appendAttr r n e).errorClasses = r.errorClasses :=
  setAttr_errorClasses r n _

theorem find?_map_update (l : List (String × List Entry)) (n : String) (v : List Entry)
    (h : l.any (fun p => decide (p.1 = n)) = true) :
    (l.map (fun p => if p.1 = n then (n, v) else p)).find? (fun p => decide (p.1 = n))
      = some (n, v) := by
  induction l with
  | nil => simp at h
  | cons p tl ih =>
    by_cases hp : p.1 = n
    · simp [hp]
    · have htl : tl.any (fun p => decide (p.1 = n)) = true := by
        simpa [List.any_cons, hp] using h
      rw [List.map_cons, if_neg hp, List.find?_cons_of_neg _ (by simp [hp])]
      exact ih htl

theorem find?_map_update_other (l : List (String × List Entry)) (n : String)
    (v : List Entry) (m : String) (hmn : m ≠ n) :
    (l.map (fun p => if p.1 = n then (n, v) else p)).find? (fun p => decide (p.1 = m))
      = l.find? (fun p => decide (p.1 = m)) := by
  induction l with
  | nil => rfl
  | cons p tl ih =>
    rw [List.map_cons]
    by_cases hp : p.1 = n
    · rw [if_pos hp,
        List.find?_cons_of_neg _ (by simp [Ne.symm hmn]),
        List.find?_cons_of_neg _ (by simp [hp, Ne.symm hmn])]
      exact ih
    · rw [if_neg hp]
      by_cases hm : p.1 = m
      · rw [List.find?_cons_of_pos _ (by simp [hm]), List.find?_cons_of_pos _ (by simp [hm])]
      · rw [List.find?_cons_of_neg _ (by simp [hm]), List.find?_cons_of_neg _ (by simp [hm])]
        exact ih

theorem getAttrD_setAttr_same (r : TestResult) (n : String) (v : List Entry) :
    getAttrD (setAttr r n v) n = v := by
  unfold setAttr getAttrD
  by_cases h : r.attrs.any (fun p => decide (p.1 = n)) = true
  · rw [if_pos h]
    simp [find?_map_update r.attrs n v h]
  · rw [if_neg h]
    have hnone : r.attrs.find? (fun p => decide (p.1 = n)) = none := by
      rw [List.find?_eq_none]
      intro x hx hcon
      exact h (List.any_eq_true.mpr ⟨x, hx, hcon⟩)
    simp [List.find?_append, hnone]

theorem getAttrD_setAttr_other (r : TestResult) (n : String) (v : List Entry)
    (m : String) (hmn : m ≠ n) :
    getAttrD (setAttr r n v) m = getAttrD r m := by
  unfold setAttr getAttrD
  by_cases h : r.attrs.any (fun p => decide (p.1 = n)) = true
  · rw [if_pos h, find?_map_update_other r.attrs n v m hmn]
  · rw [if_neg h]
    have hsingle : ([((n, v) : String × List Entry)].find? (fun p => decide (p.1 = m))) = none := by
      simp [Ne.symm hmn]
    simp [List.find?_append, hsingle]

theorem getAttrD_appendAttr_same (r : TestResult) (n : String) (e : Entry) :
    getAttrD (appendAttr r n e) n = getAttrD r n ++ [e] :=
  getAttrD_setAttr_same r n _

theorem getAttrD_appendAttr_other (r : TestResult) (n : String) (e : Entry)
    (m : String) (hmn : m ≠ n) :
    getAttrD (appendAttr r n e) m = getAttrD r m :=
  getAttrD_setAttr_other r n _ m hmn

/-! ## Helper lemmas about the registry fold of the metaclass -/

theorem metaStep_eq_append (acc : Registry) (p : String × ClassAttr) :
    metaStep acc p = acc ++ metaStep [] p := by
  cases hp : p.2 <;> simp [metaStep, hp]

theorem foldl_metaStep_append (attr : List (String × ClassAttr)) :
    ∀ acc : Registry, attr.foldl metaStep acc = acc ++ attr.foldl metaStep [] := by
  induction attr with
  | nil => intro acc; simp
  | cons p rest ih =>
    intro acc
    rw [List.foldl_cons, List.foldl_cons, ih (metaStep acc p), ih (metaStep [] p),
      metaStep_eq_append acc p, List.append_assoc]

theorem metaErrorClasses_eq_nil_of_plain :
    ∀ attr : List (String × ClassAttr),
      (∀ p ∈ attr, ∀ d, p.2 ≠ ClassAttr.errCls d) → metaErrorClasses attr = [] := by
  intro attr
  induction attr with
  | nil => intro _; rfl
  | cons p rest ih =>
    intro h
    unfold metaErrorClasses
    rw [List.foldl_cons, foldl_metaStep_append]
    have hp : metaStep [] p = [] := by
      cases hq : p.2 with
      | errCls d => exact absurd hq (h p (List.mem_cons_self _ _) d)
      | plain k => simp [metaStep, hq]
    rw [hp, List.nil_append]
    exact ih (fun q hq d => h q (List.mem_cons_of_mem _ hq) d)

/-! ## Helper lemmas about the prepare loop -/

/-- Whether the `errorClasses` dict of a result exists and has key `c`. -/
def resHasKey (r : TestResult) (c : PyClass) : Bool :=
  match r.errorClasses with
  | none => false
  | some ec => dictHasKey ec c

theorem dictHasKey_append_left (ec1 ec2 : Registry) (c : PyClass)
    (h : dictHasKey ec1 c = true) : dictHasKey (ec1 ++ ec2) c = true := by
  unfold dictHasKey at *
  rw [List.any_append, h, Bool.true_or]

theorem registryStep_isSome (r : TestResult) (e : PyClass × (String × String × Bool))
    (h : r.errorClasses.isSome) : (registryStep r e).errorClasses.isSome := by
  cases hec : r.errorClasses with
  | none => rw [hec] at h; simp at h
  | some ec =>
    simp only [registryStep, hec]
    by_cases hk : dictHasKey ec e.1 = true
    · rw [if_pos hk, hec]; rfl
    · rw [if_neg hk]; rfl

theorem registryStep_preserves_key (r : TestResult) (e : PyClass × (String × String × Bool))
    (c : PyClass) (h : resHasKey r c = true) : resHasKey (registryStep r e) c = true := by
  cases hec : r.errorClasses with
  | none => simp [resHasKey, hec] at h
  | some ec =>
    simp only [resHasKey, hec] at h
    simp only [registryStep, hec]
    by_cases hk : dictHasKey ec e.1 = true
    · rw [if_pos hk]; simp [resHasKey, hec, h]
    · rw [if_neg hk]
      simp only [resHasKey]
      exact dictHasKey_append_left ec [e] c h

theorem registryStep_adds_key (r : TestResult) (e : PyClass × (String × String × Bool))
    (h : r.errorClasses.isSome) : resHasKey (registryStep r e) e.1 = true := by
  cases hec : r.errorClasses with
  | none => rw [hec] at h; simp at h
  | some ec =>
    simp only [registryStep, hec]
    by_cases hk : dictHasKey ec e.1 = true
    · rw [if_pos hk]; simp [resHasKey, hec, hk]
    · rw [if_neg hk]
      simp [resHasKey, dictHasKey, List.any_append]

theorem foldl_registryStep_isSome :
    ∀ (l : Registry) (r : TestResult), r.errorClasses.isSome →
      (l.foldl registryStep r).errorClasses.isSome := by
  intro l
  induction l with
  | nil => intro r h; simpa using h
  | cons e tl ih =>
    intro r h
    rw [List.foldl_cons]
    exact ih _ (registryStep_isSome r e h)

theorem foldl_registryStep_preserves_key :
    ∀ (l : Registry) (r : TestResult) (c : PyClass), resHasKey r c = true →
      resHasKey (l.foldl registryStep r) c = true := by
  intro l
  induction l with
  | nil => intro r c h; simpa using h
  | cons e tl ih =>
    intro r c h
    rw [List.foldl_cons]
    exact ih _ _ (registryStep_preserves_key r e c h)

theorem foldl_registryStep_covers :
    ∀ (l : Registry) (r : TestResult), r.errorClasses.isSome →
      ∀ e ∈ l, resHasKey (l.foldl registryStep r) e.1 = true := by
  intro l
  induction l with
  | nil => intro r _ e he; cases he
  | cons hd tl ih =>
    intro r h e he
    rw [List.foldl_cons]
    rcases List.mem_cons.mp he with rfl | htl
    · exact foldl_registryStep_preserves_key tl _ _ (registryStep_adds_key r e h)
    · exact ih _ (registryStep_isSome r hd h) e htl

theorem registryStep_fixed (r : TestResult) (e : PyClass × (String × String × Bool))
    (h : resHasKey r e.1 = true) : registryStep r e = r := by
  cases hec : r.errorClasses with
  | none => simp [resHasKey, hec] at h
  | some ec =>
    simp only [resHasKey, hec] at h
    simp [registryStep, hec, h]

theorem foldl_registryStep_fixed :
    ∀ (l : Registry) (r : TestResult), (∀ e ∈ l, resHasKey r e.1 = true) →
      l.foldl registryStep r = r := by
  intro l
  induction l with
  | nil => intro r _; rfl
  | cons hd tl ih =>
    intro r h
    rw [List.foldl_cons, registryStep_fixed r hd (h hd (List.mem_cons_self _ _))]
    exact ih r (fun e he => h e (List.mem_cons_of_mem _ he))

theorem find?_first_match {α : Type} (p : α → Bool) (l1 l2 : List α) (x : α)
    (h1 : ∀ y ∈ l1, p y = false) (hx : p x = true) :
    (l1 ++ x :: l2).find? p = some x := by
  induction l1 with
  | nil => simpa using List.find?_cons_of_pos l2 hx
  | cons y ys ih =>
    rw [List.cons_append,
      List.find?_cons_of_neg _ (by simp [h1 y (List.mem_cons_self _ _)])]
    exact ih (fun z hz => h1 z (List.mem_cons_of_mem _ hz))

/-! ## Concrete exception classes used by witnesses and counterexamples -/

/-- A base exception class. -/
def baseExc : PyClass := ⟨0, [0]⟩

/-- A subclass of `baseExc`. -/
def subExc : PyClass := ⟨1, [1, 0]⟩

/-- An exception class unrelated to `baseExc`. -/
def skipExc : PyClass := ⟨2, [2]⟩

/-- Another exception class unrelated to the previous ones. -/
def otherExc : PyClass := ⟨3, [3]⟩

/-- A subclass of `skipExc`. -/
def skipSubExc : PyClass := ⟨4, [4, 2]⟩

/-! ## Claim theorems -/

/-- C4: `ErrorClass.__init__` fails at classifier-definition time with a
`TypeError` naming the missing required argument when `label` or
`isfailure` is not supplied (with `label` popped first), and succeeds when
both are present. -/
theorem errorClass_requires_label_and_isfailure :
    ∀ (cs : List PyClass) (lab : String) (isf : Bool) (mf : Option Bool),
      ErrorClass.init cs none mf = .typeError "label" ∧
      ErrorClass.init cs (some lab) none = .typeError "isfailure" ∧
      ErrorClass.init cs (some lab) (some isf) = .ok ⟨cs, lab, isf⟩ := by
  intro cs lab isf mf
  exact ⟨rfl, rfl, rfl⟩

/-- C5: when the first component of the raised `err` triple is not a
class, `ErrorClassPlugin.addError` returns `None` (falsy) without raising
and without touching any state, and the wrapped recorder method routes the
event to the default `errors` bucket. -/
theorem nonclass_err_not_handled :
    ∀ (ecs : Registry) (r : TestResult) (t n a b : Nat) (tb : String),
      pluginAddError ecs r t (.nonclass n, a, b) = (r, ecs, none) ∧
      resultAddError r t (.nonclass n) tb = appendAttr r "errors" (t, tb) := by
  intro ecs r t n a b tb
  refine ⟨rfl, ?_⟩
  cases hec : r.errorClasses <;> simp [resultAddError, hec]

/-- C9: `ErrorClassPlugin.addError` is a pure query: it returns the
recorder state and the plugin registry unchanged, whatever the event; only
the third component (the handled verdict) carries information. -/
theorem addError_hook_is_pure :
    ∀ (ecs : Registry) (r : TestResult) (t : Nat) (err : PyVal × Nat × Nat),
      (pluginAddError ecs r t err).1 = r ∧ (pluginAddError ecs r t err).2.1 = ecs := by
  intro ecs r t err
  rcases err with ⟨ec, a, b⟩
  cases ec with
  | nonclass n => exact ⟨rfl, rfl⟩
  | cls c =>
    simp only [pluginAddError]
    split <;> exact ⟨rfl, rfl⟩

/-- The registry as the spec words it: walking the declarations in order,
a category declared under attribute name `N` with `K` exception classes
contributes the block of `K` tuples `(cls, (N, label, isfailure))`, one per
(type, category) pair, and non-`ErrorClass` attributes contribute
nothing. -/
def specRegistry : List (String × ClassAttr) → Registry
  | [] => []
  | p :: rest =>
      (match p.2 with
       | .errCls d => d.errorClasses.map (fun c => (c, (p.1, d.label, d.isfailure)))
       | .plain _ => []) ++ specRegistry rest

/-- C8: the registry built by `MetaErrorClass.__init__` is exactly the
per-pair flattening described by the spec: one
`(exceptionType, (categoryName, label, isFailure))` entry per declared
(type, category) pair, each carrying the attribute name of its category as
the storage-bucket name. -/
theorem registry_one_entry_per_pair :
    ∀ attr : List (String × ClassAttr), metaErrorClasses attr = specRegistry attr := by
  intro attr
  induction attr with
  | nil => rfl
  | cons p rest ih =>
    unfold metaErrorClasses at ih ⊢
    rw [List.foldl_cons, foldl_metaStep_append, ih]
    cases hp : p.2 <;> simp [metaStep, specRegistry, hp]

/-- C10: a plugin subclass whose body declares no `ErrorClass` attribute
gets `errorClasses = ()` from the metaclass; the registry of the base
class is not inherited, because `MetaErrorClass.__init__` rebuilds and
sets the attribute on every class from its own body alone. -/
theorem subclass_registry_not_inherited (baseEC : Registry)
    (attr : List (String × ClassAttr))
    (h : ∀ p ∈ attr, ∀ d, p.2 ≠ ClassAttr.errCls d) :
    (defineClass baseEC attr).lookupErrorClasses = [] := by
  unfold defineClass PluginClass.lookupErrorClasses
  simp [metaErrorClasses_eq_nil_of_plain attr h]

/-- Witness for C10: a subclass declaring only a plain attribute, over a
base class with a non-empty registry, has an empty registry. -/
theorem subclass_registry_not_inherited_witness :
    (defineClass [(baseExc, ("todo", "TODO", true))]
      [("score", ClassAttr.plain 1000)]).lookupErrorClasses = [] :=
  subclass_registry_not_inherited _ _
    (by intro p hp d; rcases List.mem_singleton.mp hp with rfl; simp)

/-- C6: `prepareTestResult` is idempotent per recorder: a second call with
the same registry leaves the whole recorder state (the `errorClasses`
dict, every storage bucket, and the patched-methods flag) exactly as after
the first call, and in particular does not patch the methods again. -/
theorem prepareTestResult_idempotent (ecs : Registry) (r : TestResult) :
    prepareTestResult ecs (prepareTestResult ecs r) = prepareTestResult ecs r := by
  have h1 : (if r.errorClasses.isNone then patchResult r else r).errorClasses.isSome := by
    cases hh : r.errorClasses with
    | none => simp [hh, patchResult]
    | some ec => simp [hh]
  unfold prepareTestResult
  obtain ⟨ec2, hec2⟩ := Option.isSome_iff_exists.mp (foldl_registryStep_isSome ecs _ h1)
  rw [if_neg (by rw [hec2]; simp)]
  exact foldl_registryStep_fixed ecs _ (fun e he => foldl_registryStep_covers ecs _ h1 e he)

/-- C2: first match wins in declaration order: when the `errorClasses`
index holds a block `l1` of entries none of which the raised class
matches, then an entry for `B` that it does match, the wrapped
record-error operation routes the event to the storage bucket of that
entry, regardless of any later matching entries. -/
theorem declaration_order_first_match_wins
    (r : TestResult) (l1 l2 : Registry) (B : PyClass) (n1 lb1 : String) (f1 : Bool)
    (c : PyClass) (t : Nat) (tb : String)
    (hec : r.errorClasses = some (l1 ++ (B, (n1, lb1, f1)) :: l2))
    (h1 : ∀ e ∈ l1, issubclass c e.1 = false)
    (hB : issubclass c B = true) :
    resultAddError r t (.cls c) tb = appendAttr r n1 (t, tb) := by
  have hfind : (l1 ++ (B, (n1, lb1, f1)) :: l2).find? (fun q => issubclass c q.1)
      = some (B, (n1, lb1, f1)) :=
    find?_first_match _ l1 l2 _ (fun y hy => h1 y hy) hB
  simp [resultAddError, hec, hfind]

/-- The registry of a classifier declaring `c1` matching `baseExc` before
`c2` matching `subExc`, a subclass of `baseExc`. -/
def orderReg : Registry := [(baseExc, ("c1", "C1", false)), (subExc, ("c2", "C2", false))]

/-- A recorder extended with `orderReg`. -/
def orderRes : TestResult := prepareTestResult orderReg freshResult

/-- Witness for C2: raising `subExc` on the recorder extended with
`orderReg` routes the event to the bucket of `c1`, the earlier declared
category. -/
theorem declaration_order_first_match_wins_witness :
    resultAddError orderRes 7 (.cls subExc) "tb" = appendAttr orderRes "c1" (7, "tb") :=
  declaration_order_first_match_wins orderRes [] [(subExc, ("c2", "C2", false))]
    baseExc "c1" "C1" false subExc 7 "tb" (by rfl)
    (by intro e he; cases he) (by decide)

/-- C3: on an extended recorder the wrapped success query returns false
exactly when the default `failures` bucket is non-empty, the default
`errors` bucket is non-empty, or some `errorClasses` entry has
`isfailure = true` and a non-empty storage bucket; consequently a
non-empty bucket whose entry has `isfailure = false` never flips the
verdict. -/
theorem wasSuccessful_false_iff (r : TestResult) (ec : Registry)
    (hec : r.errorClasses = some ec) :
    resultWasSuccessful r = false ↔
      (getAttrD r "failures" ≠ [] ∨ getAttrD r "errors" ≠ [] ∨
        ∃ q ∈ ec, q.2.2.2 = true ∧ getAttrD r q.2.1 ≠ []) := by
  simp only [resultWasSuccessful, hec]
  cases hfl : getAttrD r "failures" with
  | cons x xs => simp
  | nil =>
    cases hel : getAttrD r "errors" with
    | cons y ys => simp
    | nil => simp [List.any_eq_true]

/-- A recorder with empty default buckets and one non-empty bucket whose
entry counts as a failure. -/
def failBucketRes : TestResult :=
  ⟨[("errors", []), ("failures", []), ("todo", [(0, "x")])],
   some [(baseExc, ("todo", "TODO", true))], true⟩

/-- Witness for C3: on `failBucketRes` the wrapped success query returns
false although both default buckets are empty. -/
theorem wasSuccessful_false_iff_witness :
    resultWasSuccessful failBucketRes = false :=
  (wasSuccessful_false_iff failBucketRes [(baseExc, ("todo", "TODO", true))] rfl).mpr
    (Or.inr (Or.inr ⟨(baseExc, ("todo", "TODO", true)), by simp, by decide, by decide⟩))

/-- A classifier registry in which `baseExc` is registered under category
`bucket1` before its subclass `subExc` is registered under `bucket2`. -/
def overlapReg : Registry :=
  [(baseExc, ("bucket1", "B1", true)), (subExc, ("bucket2", "B2", true))]

/-- A recorder extended with `overlapReg`. -/
def overlapRes : TestResult := prepareTestResult overlapReg freshResult

/-- Counterexample to C1 as stated: `subExc` is registered under category
`bucket2` and an exception of runtime type `subExc` is raised, the hook
answers handled, yet zero entries land in the bucket of `bucket2` (the
event goes to the bucket of the earlier declared `bucket1`), so the
claimed "exactly one entry is appended to the bucket of C" fails for
`T = subExc`, `C = bucket2`. -/
theorem subtype_routed_to_own_category_counterexample :
    (subExc, ("bucket2", "B2", true)) ∈ overlapReg ∧
    issubclass subExc subExc = true ∧
    (pluginAddError overlapReg overlapRes 0 (.cls subExc, 0, 0)).2.2 = some true ∧
    getAttrD (resultAddError overlapRes 0 (.cls subExc) "tb") "bucket2" = [] ∧
    getAttrD (resultAddError overlapRes 0 (.cls subExc) "tb") "bucket1" = [(0, "tb")] ∧
    getAttrD (resultAddError overlapRes 0 (.cls subExc) "tb") "errors" = [] := by
  decide

/-- C1 (amended): for an exception type `T` registered under category
`cn`, when an exception whose runtime type matches is raised and the entry
of `cn` is the first entry of the index matching the raised type (in
particular, always, when no earlier declared entry also matches), the hook
answers handled, exactly one `(test, formattedTraceback)` entry is
appended to the bucket of `cn`, and the default `errors` bucket is left
untouched. -/
theorem subtype_routed_to_first_matching_category
    (ecs : Registry) (r : TestResult) (T : PyClass) (cn lb : String) (isf : Bool)
    (c : PyClass) (t a b : Nat) (tb : String)
    (hec : r.errorClasses = some ecs)
    (hfind : ecs.find? (fun q => issubclass c q.1) = some (T, (cn, lb, isf)))
    (hcn : cn ≠ "errors") :
    (pluginAddError ecs r t (.cls c, a, b)).2.2 = some true ∧
    getAttrD (resultAddError r t (.cls c) tb) cn = getAttrD r cn ++ [(t, tb)] ∧
    getAttrD (resultAddError r t (.cls c) tb) "errors" = getAttrD r "errors" := by
  have hmem : (T, (cn, lb, isf)) ∈ ecs := List.mem_of_find?_eq_some hfind
  have hsub : issubclass c T = true := by
    have hp := List.find?_some hfind
    simpa using hp
  have hroute : resultAddError r t (.cls c) tb = appendAttr r cn (t, tb) := by
    simp [resultAddError, hec, hfind]
  refine ⟨?_, ?_, ?_⟩
  · have hT : T ∈ (ecs.map (fun e => e.1)).filter (fun k => issubclass c k) :=
      List.mem_filter.mpr ⟨List.mem_map.mpr ⟨_, hmem, rfl⟩, hsub⟩
    have hfne : ((ecs.map (fun e => e.1)).filter (fun k => issubclass c k)).isEmpty = false :=
      List.isEmpty_eq_false.mpr (List.ne_nil_of_mem hT)
    simp [pluginAddError, hfne]
  · rw [hroute]
    exact getAttrD_appendAttr_same r cn (t, tb)
  · rw [hroute]
    exact getAttrD_appendAttr_other r cn (t, tb) "errors" (Ne.symm hcn)

/-- The registry of a classifier declaring a single category `skipped`
matching `skipExc`. -/
def skipReg : Registry := [(skipExc, ("skipped", "SKIP", false))]

/-- A recorder extended with `skipReg`. -/
def skipRes : TestResult := prepareTestResult skipReg freshResult

/-- Witness for the amended C1: raising a subclass of `skipExc` on the
recorder extended with `skipReg` is handled, appends exactly one entry to
the `skipped` bucket, and leaves the default `errors` bucket untouched. -/
theorem subtype_routed_to_first_matching_category_witness :
    (pluginAddError skipReg skipRes 5 (.cls skipSubExc, 0, 0)).2.2 = some true ∧
    getAttrD (resultAddError skipRes 5 (.cls skipSubExc) "tb") "skipped"
      = getAttrD skipRes "skipped" ++ [(5, "tb")] ∧
    getAttrD (resultAddError skipRes 5 (.cls skipSubExc) "tb") "errors"
      = getAttrD skipRes "errors" :=
  subtype_routed_to_first_matching_category skipReg skipRes skipExc "skipped" "SKIP"
    false skipSubExc 5 0 0 "tb" rfl (by decide) (by decide)


/-! ## Helper lemmas for the universal merge statement -/

/-- Number of `attrs` bindings carrying a given name (one for a
well-formed result object; `setattr` never creates a second one). -/
def attrCount (r : TestResult) (n : String) : Nat :=
  r.attrs.countP (fun p => decide (p.1 = n))

theorem countP_map_update (l : List (String × List Entry)) (n : String)
    (v : List Entry) (m : String) :
    (l.map (fun p => if p.1 = n then (n, v) else p)).countP (fun p => decide (p.1 = m))
      = l.countP (fun p => decide (p.1 = m)) := by
  induction l with
  | nil => rfl
  | cons p tl ih =>
    rw [List.map_cons]
    by_cases hp : p.1 = n
    · rw [if_pos hp]; simp [List.countP_cons, ih, hp]
    · rw [if_neg hp]; simp [List.countP_cons, ih]

theorem attrCount_setAttr (r : TestResult) (nm : String) (v : List Entry) (m : String) :
    attrCount (setAttr r nm v) m
      = if nm = m ∧ attrCount r m = 0 then 1 else attrCount r m := by
  unfold setAttr attrCount
  by_cases h : r.attrs.any (fun p => decide (p.1 = nm)) = true
  · rw [if_pos h]
    show (r.attrs.map (fun p => if p.1 = nm then (nm, v) else p)).countP
        (fun p => decide (p.1 = m)) = _
    rw [countP_map_update]
    by_cases hc : nm = m ∧ r.attrs.countP (fun p => decide (p.1 = m)) = 0
    · exfalso
      rcases List.any_eq_true.mp h with ⟨p, hp, hpn⟩
      have hpm : decide (p.1 = m) = true := by
        have : p.1 = nm := by simpa using hpn
        simp [this, hc.1]
      exact (List.countP_eq_zero.mp hc.2 p hp) hpm
    · rw [if_neg hc]
  · rw [if_neg h]
    show (r.attrs ++ [(nm, v)]).countP (fun p => decide (p.1 = m)) = _
    rw [List.countP_append]
    have hc0 : r.attrs.countP (fun p => decide (p.1 = nm)) = 0 := by
      rw [List.countP_eq_zero]
      intro a ha hcon
      exact h (List.any_eq_true.mpr ⟨a, ha, hcon⟩)
    by_cases hm : nm = m
    · subst hm
      simp [hc0, List.countP_cons]
    · simp [hm, List.countP_cons]

theorem attrCount_setAttr_le (r : TestResult) (nm : String) (v : List Entry) (m : String) :
    attrCount r m ≤ attrCount (setAttr r nm v) m := by
  rw [attrCount_setAttr]
  by_cases hc : nm = m ∧ attrCount r m = 0
  · rw [if_pos hc]; omega
  · rw [if_neg hc]

theorem attrCount_setAttr_pos (r : TestResult) (nm : String) (v : List Entry) :
    0 < attrCount (setAttr r nm v) nm := by
  rw [attrCount_setAttr]
  by_cases hc : attrCount r nm = 0
  · simp [hc]
  · rw [if_neg (by simp [hc])]
    omega

theorem registryStep_skip (r : TestResult) (ec : Registry)
    (e : PyClass × (String × String × Bool))
    (hec : r.errorClasses = some ec) (hk : dictHasKey ec e.1 = true) :
    registryStep r e = r := by
  simp [registryStep, hec, hk]

theorem registryStep_insert (r : TestResult) (ec : Registry)
    (e : PyClass × (String × String × Bool))
    (hec : r.errorClasses = some ec) (hk : ¬ dictHasKey ec e.1 = true) :
    registryStep r e
      = ⟨(setAttr r e.2.1 (getAttrD r e.2.1)).attrs, some (ec ++ [e]),
         (setAttr r e.2.1 (getAttrD r e.2.1)).patched⟩ := by
  simp [registryStep, hec, hk]

theorem attrCount_registryStep_le_one (r : TestResult)
    (e : PyClass × (String × String × Bool)) (m : String)
    (h : attrCount r m ≤ 1) : attrCount (registryStep r e) m ≤ 1 := by
  cases hec : r.errorClasses with
  | none => simpa [registryStep, hec] using h
  | some ec =>
    by_cases hk : dictHasKey ec e.1 = true
    · rw [registryStep_skip r ec e hec hk]; exact h
    · rw [registryStep_insert r ec e hec hk]
      show attrCount (setAttr r e.2.1 (getAttrD r e.2.1)) m ≤ 1
      rw [attrCount_setAttr]
      by_cases hc : e.2.1 = m ∧ attrCount r m = 0
      · rw [if_pos hc]
      · rw [if_neg hc]; exact h

theorem attrCount_foldl_le_one :
    ∀ (l : Registry) (r : TestResult) (m : String), attrCount r m ≤ 1 →
      attrCount (l.foldl registryStep r) m ≤ 1 := by
  intro l
  induction l with
  | nil => intro r m h; simpa using h
  | cons e tl ih =>
    intro r m h
    rw [List.foldl_cons]
    exact ih _ m (attrCount_registryStep_le_one r e m h)

theorem foldl_registryStep_extends :
    ∀ (l : Registry) (r : TestResult) (ec : Registry), r.errorClasses = some ec →
      ∃ tail, (l.foldl registryStep r).errorClasses = some (ec ++ tail) ∧
        ∀ q ∈ tail, q ∈ l := by
  intro l
  induction l with
  | nil =>
    intro r ec hec
    exact ⟨[], by simpa using hec, by intro q hq; cases hq⟩
  | cons e tl ih =>
    intro r ec hec
    rw [List.foldl_cons]
    by_cases hk : dictHasKey ec e.1 = true
    · rw [registryStep_skip r ec e hec hk]
      rcases ih r ec hec with ⟨tail, h1, h2⟩
      exact ⟨tail, h1, fun q hq => List.mem_cons_of_mem _ (h2 q hq)⟩
    · rw [registryStep_insert r ec e hec hk]
      rcases ih ⟨(setAttr r e.2.1 (getAttrD r e.2.1)).attrs, some (ec ++ [e]),
        (setAttr r e.2.1 (getAttrD r e.2.1)).patched⟩ (ec ++ [e]) rfl with ⟨tail2, h1, h2⟩
      refine ⟨e :: tail2, ?_, ?_⟩
      · rw [h1]; simp
      · intro q hq
        rcases List.mem_cons.mp hq with rfl | hq2
        · exact List.mem_cons_self _ _
        · exact List.mem_cons_of_mem _ (h2 q hq2)

theorem foldl_registryStep_inserts :
    ∀ (l : Registry) (r : TestResult) (ec : Registry)
      (q : PyClass × (String × String × Bool)),
      r.errorClasses = some ec →
      dictHasKey ec q.1 = false →
      l.find? (fun e => decide (e.1 = q.1)) = some q →
      ∃ ecf, (l.foldl registryStep r).errorClasses = some ecf ∧ q ∈ ecf := by
  intro l
  induction l with
  | nil => intro r ec q _ _ hf; simp at hf
  | cons e tl ih =>
    intro r ec q hec hk hf
    rw [List.foldl_cons]
    by_cases he : e.1 = q.1
    · have hfe : (e :: tl).find? (fun x => decide (x.1 = q.1)) = some e :=
        List.find?_cons_of_pos _ (by simp [he])
      rw [hfe] at hf
      have heq : e = q := by injection hf
      subst heq
      rw [registryStep_insert r ec e hec (by simp [hk])]
      rcases foldl_registryStep_extends tl
        ⟨(setAttr r e.2.1 (getAttrD r e.2.1)).attrs, some (ec ++ [e]),
         (setAttr r e.2.1 (getAttrD r e.2.1)).patched⟩ (ec ++ [e]) rfl with ⟨tail, h1, h2⟩
      exact ⟨(ec ++ [e]) ++ tail, h1, by simp⟩
    · have hf2 : tl.find? (fun x => decide (x.1 = q.1)) = some q := by
        rwa [List.find?_cons_of_neg _ (by simp [he])] at hf
      by_cases hk2 : dictHasKey ec e.1 = true
      · rw [registryStep_skip r ec e hec hk2]
        exact ih r ec q hec hk hf2
      · rw [registryStep_insert r ec e hec hk2]
        apply ih _ (ec ++ [e]) q rfl _ hf2
        unfold dictHasKey at hk ⊢
        simp [List.any_append, hk, he]

theorem foldl_registryStep_no_key :
    ∀ (l : Registry) (r : TestResult) (ec : Registry) (c : PyClass),
      r.errorClasses = some ec →
      dictHasKey ec c = false →
      (∀ e ∈ l, e.1 ≠ c) →
      ∃ ecf, (l.foldl registryStep r).errorClasses = some ecf ∧
        dictHasKey ecf c = false := by
  intro l
  induction l with
  | nil => intro r ec c hec hk _; exact ⟨ec, hec, hk⟩
  | cons e tl ih =>
    intro r ec c hec hk h
    rw [List.foldl_cons]
    by_cases hk2 : dictHasKey ec e.1 = true
    · rw [registryStep_skip r ec e hec hk2]
      exact ih r ec c hec hk (fun x hx => h x (List.mem_cons_of_mem _ hx))
    · rw [registryStep_insert r ec e hec hk2]
      apply ih _ (ec ++ [e]) c rfl _ (fun x hx => h x (List.mem_cons_of_mem _ hx))
      unfold dictHasKey at hk ⊢
      simp [List.any_append, hk, h e (List.mem_cons_self _ _)]

theorem foldl_registryStep_bound :
    ∀ (l : Registry) (r : TestResult) (ec : Registry),
      r.errorClasses = some ec →
      (∀ q ∈ ec, 0 < attrCount r q.2.1) →
      ∃ ecf, (l.foldl registryStep r).errorClasses = some ecf ∧
        ∀ q ∈ ecf, 0 < attrCount (l.foldl registryStep r) q.2.1 := by
  intro l
  induction l with
  | nil => intro r ec hec hb; exact ⟨ec, hec, hb⟩
  | cons e tl ih =>
    intro r ec hec hb
    rw [List.foldl_cons]
    by_cases hk : dictHasKey ec e.1 = true
    · rw [registryStep_skip r ec e hec hk]
      exact ih r ec hec hb
    · rw [registryStep_insert r ec e hec hk]
      apply ih _ (ec ++ [e]) rfl
      intro q hq
      rcases List.mem_append.mp hq with hq1 | hq2
      · exact lt_of_lt_of_le (hb q hq1) (attrCount_setAttr_le r e.2.1 _ q.2.1)
      · rcases List.mem_singleton.mp hq2 with rfl
        exact attrCount_setAttr_pos r q.2.1 _

/-- C7: for every recorder `r0` not yet extended, every classifier pair
`pA`, `pB` declaring categories for fresh exception classes `cA`, `cB`
under one shared storage name `n` that `r0` does not carry yet, extending
first with `pA` and then with `pB` merges into the existing index rather
than overwriting it (the index of the first extension survives as a
prefix and only entries of `pB` are appended), both classifiers keep
their entry for `n` in the merged index, exactly one storage bucket named
`n` exists afterwards, and any two events whose first matching entries
carry name `n` — one matched through either classifier — accumulate in
that single shared bucket in arrival order. -/
theorem second_classifier_merges_shared_bucket
    (pA pB : Registry) (r0 : TestResult)
    (cA cB : PyClass) (n lA lB : String) (fA fB : Bool)
    (h0 : r0.errorClasses = none)
    (hA : pA.find? (fun e => decide (e.1 = cA)) = some (cA, (n, lA, fA)))
    (hB : pB.find? (fun e => decide (e.1 = cB)) = some (cB, (n, lB, fB)))
    (hfresh : ∀ e ∈ pA, e.1 ≠ cB)
    (hbucket : attrCount r0 n = 0) :
    ∃ ecA tail,
      (prepareTestResult pA r0).errorClasses = some ecA ∧
      (prepareTestResult pB (prepareTestResult pA r0)).errorClasses = some (ecA ++ tail) ∧
      (∀ q ∈ tail, q ∈ pB) ∧
      (cA, (n, lA, fA)) ∈ ecA ∧
      (cB, (n, lB, fB)) ∈ ecA ++ tail ∧
      attrCount (prepareTestResult pB (prepareTestResult pA r0)) n = 1 ∧
      (∀ (c1 c2 : PyClass) (q1 q2 : PyClass × (String × String × Bool))
          (t1 t2 : Nat) (s1 s2 : String),
        (ecA ++ tail).find? (fun q => issubclass c1 q.1) = some q1 → q1.2.1 = n →
        (ecA ++ tail).find? (fun q => issubclass c2 q.1) = some q2 → q2.2.1 = n →
        getAttrD (resultAddError (resultAddError
            (prepareTestResult pB (prepareTestResult pA r0)) t1 (.cls c1) s1)
            t2 (.cls c2) s2) n
          = getAttrD (prepareTestResult pB (prepareTestResult pA r0)) n
              ++ [(t1, s1), (t2, s2)]) := by
  have hpre1 : prepareTestResult pA r0 = pA.foldl registryStep (patchResult r0) := by
    unfold prepareTestResult
    rw [if_pos (by simp [h0])]
  have hpatch : (patchResult r0).errorClasses = some [] := rfl
  rcases foldl_registryStep_inserts pA (patchResult r0) [] (cA, (n, lA, fA)) hpatch
    (by simp [dictHasKey]) hA with ⟨ecA, hecA, hmemA⟩
  rcases foldl_registryStep_no_key pA (patchResult r0) [] cB hpatch
    (by simp [dictHasKey]) hfresh with ⟨ecA2, hecA2, hkeyB⟩
  obtain rfl : ecA = ecA2 := Option.some.inj (hecA.symm.trans hecA2)
  rcases foldl_registryStep_bound pA (patchResult r0) [] hpatch
    (by intro q hq; cases hq) with ⟨ecA3, hecA3, hbound1⟩
  obtain rfl : ecA = ecA3 := Option.some.inj (hecA.symm.trans hecA3)
  have hpre2 : prepareTestResult pB (pA.foldl registryStep (patchResult r0))
      = pB.foldl registryStep (pA.foldl registryStep (patchResult r0)) := by
    unfold prepareTestResult
    rw [if_neg (by rw [hecA]; simp)]
  rw [hpre1, hpre2]
  rcases foldl_registryStep_extends pB _ ecA hecA with ⟨tail, htail, htailmem⟩
  rcases foldl_registryStep_inserts pB _ ecA (cB, (n, lB, fB)) hecA hkeyB hB
    with ⟨ecf2, hecf2, hmemB⟩
  obtain rfl : ecf2 = ecA ++ tail := Option.some.inj (hecf2.symm.trans htail)
  rcases foldl_registryStep_bound pB _ ecA hecA hbound1 with ⟨ecf3, hecf3, hbound2⟩
  obtain rfl : ecf3 = ecA ++ tail := Option.some.inj (hecf3.symm.trans htail)
  have hle : attrCount (pB.foldl registryStep (pA.foldl registryStep (patchResult r0))) n ≤ 1 := by
    apply attrCount_foldl_le_one
    apply attrCount_foldl_le_one
    show attrCount r0 n ≤ 1
    omega
  have hge : 0 < attrCount (pB.foldl registryStep (pA.foldl registryStep (patchResult r0))) n := by
    have hb := hbound2 (cA, (n, lA, fA)) (List.mem_append_left _ hmemA)
    simpa using hb
  refine ⟨ecA, tail, hecA, htail, htailmem, hmemA, hmemB, Nat.le_antisymm hle hge, ?_⟩
  intro c1 c2 q1 q2 t1 t2 s1 s2 hf1 hq1 hf2 hq2
  set R := pB.foldl registryStep (pA.foldl registryStep (patchResult r0)) with hR
  have hadd1 : resultAddError R t1 (.cls c1) s1 = appendAttr R n (t1, s1) := by
    simp [resultAddError, htail, hf1, hq1]
  rw [hadd1]
  have hdict1 : (appendAttr R n (t1, s1)).errorClasses = some (ecA ++ tail) := by
    rw [appendAttr_errorClasses]
    exact htail
  have hadd2 : resultAddError (appendAttr R n (t1, s1)) t2 (.cls c2) s2
      = appendAttr (appendAttr R n (t1, s1)) n (t2, s2) := by
    simp [resultAddError, hdict1, hf2, hq2]
  rw [hadd2, getAttrD_appendAttr_same, getAttrD_appendAttr_same]
  simp

/-- Witness for C7: a fresh recorder extended first with a classifier
declaring `todo` for `baseExc` and then with one declaring `todo` for
`otherExc`. -/
theorem second_classifier_merges_shared_bucket_witness :
    ∃ ecA tail,
      (prepareTestResult [(baseExc, ("todo", "TODO", true))] freshResult).errorClasses
        = some ecA ∧
      (prepareTestResult [(otherExc, ("todo", "TODO2", false))]
        (prepareTestResult [(baseExc, ("todo", "TODO", true))] freshResult)).errorClasses
          = some (ecA ++ tail) ∧
      (∀ q ∈ tail, q ∈ [(otherExc, ("todo", "TODO2", false))]) ∧
      (baseExc, ("todo", "TODO", true)) ∈ ecA ∧
      (otherExc, ("todo", "TODO2", false)) ∈ ecA ++ tail ∧
      attrCount (prepareTestResult [(otherExc, ("todo", "TODO2", false))]
        (prepareTestResult [(baseExc, ("todo", "TODO", true))] freshResult)) "todo" = 1 ∧
      (∀ (c1 c2 : PyClass) (q1 q2 : PyClass × (String × String × Bool))
          (t1 t2 : Nat) (s1 s2 : String),
        (ecA ++ tail).find? (fun q => issubclass c1 q.1) = some q1 → q1.2.1 = "todo" →
        (ecA ++ tail).find? (fun q => issubclass c2 q.1) = some q2 → q2.2.1 = "todo" →
        getAttrD (resultAddError (resultAddError
            (prepareTestResult [(otherExc, ("todo", "TODO2", false))]
              (prepareTestResult [(baseExc, ("todo", "TODO", true))] freshResult))
            t1 (.cls c1) s1) t2 (.cls c2) s2) "todo"
          = getAttrD (prepareTestResult [(otherExc, ("todo", "TODO2", false))]
              (prepareTestResult [(baseExc, ("todo", "TODO", true))] freshResult)) "todo"
              ++ [(t1, s1), (t2, s2)]) :=
  second_classifier_merges_shared_bucket
    [(baseExc, ("todo", "TODO", true))] [(otherExc, ("todo", "TODO2", false))] freshResult
    baseExc otherExc "todo" "TODO" "TODO2" true false
    rfl (by decide) (by decide) (by decide) (by decide)
